import Mathlib

/-!
Verification of the Gold_Inventory accounting repair scripts
(`backend/comprehensive_accounting_fix.py`, `backend/restore_accounting_data.py`).

Shallow embedding conventions:
* The Mongo document store is modeled as a `DBState` holding lists of
  `Account`, `Transaction` and `Invoice` records; `insert_one` appends to a
  list, `update_one`/`find_one` act on the first matching element, and
  `update_many` maps over all matching elements.
* Python floats (currency amounts) are modeled as exact rationals `ℚ`.
* Opaque uuid identifiers are modeled as `Nat` drawn from a `nextId` counter
  in the state (uuid4 collisions being out of the model, freshness is an
  explicit hypothesis `accountIdsBounded` where a theorem needs it).
* Optional / possibly-missing document fields that the script reads through
  `.get(..., default)` are modeled as `Option` values; Python's
  `x or default` on an id string (which also treats the empty string as
  missing) is modeled as `Option.getD`.
* `created_at` timestamps matter to the script only through their calendar
  year (transaction numbering), so they are modeled as `created_at_year :
  Option Nat`, `none` standing for a missing or non-`datetime` value.
* Pure-metadata fields that no script logic ever reads back (`account_name`,
  `party_id`, `party_name`, `notes`, `mode`, `created_by`, `deleted_at`,
  `date`) are omitted from the embedded records.
-/

/-! ### Decimal rendering of natural numbers (Python `str(n)` / `str.zfill`) -/

/-- Character for a single decimal digit. -/
def digitChar (n : Nat) : Char := Char.ofNat (48 + n)

/-- Decimal digit characters of `n`, most significant first (Python `str(n)`
for a non-negative integer). -/
def natDigits (n : Nat) : List Char :=
  if h : n < 10 then [digitChar n]
  else natDigits (n / 10) ++ [digitChar (n % 10)]
  termination_by n
  decreasing_by
    exact Nat.div_lt_self (Nat.lt_of_lt_of_le (by omega) (Nat.le_of_not_lt h)) (by omega)

/-- Python `str(n)` for `n : Nat`. -/
def natToDecimal (n : Nat) : String := String.mk (natDigits n)

/-- Python `str.zfill(w)`: left-pad with `'0'` to width `w`. -/
def zfill (w : Nat) (s : String) : String :=
  if s.length ≥ w then s else String.mk (List.replicate (w - s.length) '0') ++ s

/-- Decimal value of a digit character. -/
def digitVal (c : Char) : Nat := c.toNat - 48

/-- Fold a list of digit characters into the number they denote, extending an
accumulator; leading `'0'` characters do not change the result. -/
def decimalValueFrom (acc : Nat) (l : List Char) : Nat :=
  l.foldl (fun a c => a * 10 + digitVal c) acc

theorem digitVal_digitChar {d : Nat} (h : d < 10) : digitVal (digitChar d) = d := by
  interval_cases d <;> rfl

theorem decimalValueFrom_append (acc : Nat) (l₁ l₂ : List Char) :
    decimalValueFrom acc (l₁ ++ l₂) = decimalValueFrom (decimalValueFrom acc l₁) l₂ := by
  simp [decimalValueFrom, List.foldl_append]

theorem decimalValueFrom_natDigits (n : Nat) :
    ∀ acc, decimalValueFrom acc (natDigits n) = acc * 10 ^ (natDigits n).length + n := by
  induction n using Nat.strong_induction_on with
  | _ n ih =>
    intro acc
    rw [natDigits]
    by_cases h : n < 10
    · simp [h, decimalValueFrom, digitVal_digitChar h]
    · have hpos : 0 < n := by omega
      have hdiv : n / 10 < n := Nat.div_lt_self hpos (by omega)
      simp only [h, dite_false, decimalValueFrom_append]
      rw [ih (n / 10) hdiv acc]
      have hmod : n % 10 < 10 := Nat.mod_lt _ (by omega)
      simp [decimalValueFrom, digitVal_digitChar hmod, List.length_append]
      ring_nf
      omega

theorem decimalValue_replicate_zero (k : Nat) :
    decimalValueFrom 0 (List.replicate k '0') = 0 := by
  induction k with
  | zero => rfl
  | succ k ih =>
    simpa [decimalValueFrom, List.replicate_succ, List.foldl_cons] using ih

theorem decimalValue_zfill_natToDecimal (w n : Nat) :
    decimalValueFrom 0 (zfill w (natToDecimal n)).data = n := by
  unfold zfill
  by_cases h : (natToDecimal n).length ≥ w
  · rw [if_pos h]
    simpa [natToDecimal] using decimalValueFrom_natDigits n 0
  · rw [if_neg h]
    have hdata : (String.mk (List.replicate (w - (natToDecimal n).length) '0') ++
        natToDecimal n).data
        = List.replicate (w - (natToDecimal n).length) '0' ++ natDigits n := rfl
    rw [hdata, decimalValueFrom_append, decimalValue_replicate_zero]
    simpa using decimalValueFrom_natDigits n 0

theorem zfill_natToDecimal_injective {w m n : Nat}
    (h : zfill w (natToDecimal m) = zfill w (natToDecimal n)) : m = n := by
  have := decimalValue_zfill_natToDecimal w m
  rw [h, decimalValue_zfill_natToDecimal w n] at this
  omega

/-! ### Python string helpers -/

/-- `startsWithChars n h` : the char list `n` is an initial segment of `h`. -/
def startsWithChars : List Char → List Char → Bool
  | [], _ => true
  | _ :: _, [] => false
  | c :: cs, d :: ds => c == d && startsWithChars cs ds

/-- `hasSubChars n h` : the char list `n` occurs contiguously inside `h`. -/
def hasSubChars (needle : List Char) : List Char → Bool
  | [] => startsWithChars needle []
  | hay@(_ :: rest) => startsWithChars needle hay || hasSubChars needle rest

/-- Python's substring test `needle in hay`. -/
def strContains (needle hay : String) : Bool := hasSubChars needle.data hay.data

/-- Python `str.lower()` (character-wise; the script only lowercases ASCII
account names and type labels). -/
def lowerString (s : String) : String := String.mk (s.data.map Char.toLower)

/-! ### Data model (`accounts`, `transactions`, `invoices` collections) -/

/-- An `accounts` document. -/
structure Account where
  id : Nat
  name : String
  account_type : Option String
  opening_balance : ℚ
  current_balance : ℚ
  is_deleted : Bool
deriving DecidableEq

/-- A `transactions` document. -/
structure Transaction where
  id : Nat
  transaction_number : String
  transaction_type : String
  account_id : Option Nat
  amount : ℚ
  category : String
  reference_type : String
  reference_id : Option Nat
  created_at_year : Option Nat
  is_deleted : Bool
  deleted_by : String
deriving DecidableEq

/-- An `invoices` document (read-only input to the engine). -/
structure Invoice where
  id : Nat
  paid_amount : ℚ
  is_deleted : Bool
deriving DecidableEq

/-- The document store plus the fresh-uuid counter. -/
structure DBState where
  accounts : List Account
  transactions : List Transaction
  invoices : List Invoice
  nextId : Nat
deriving DecidableEq

/-! ### Taxonomy tables (`ACCOUNT_TYPES`, `STANDARD_ACCOUNTS`) -/

/-- The `ACCOUNT_TYPES` dict; only its keys are ever consulted. -/
def ACCOUNT_TYPES : List (String × String) :=
  [("asset", "ASSET"), ("income", "INCOME"), ("expense", "EXPENSE"),
   ("liability", "LIABILITY"), ("equity", "EQUITY")]

/-- The ordered `STANDARD_ACCOUNTS` name → type table (Python dicts preserve
insertion order, so it is a list). -/
def STANDARD_ACCOUNTS : List (String × String) :=
  [("Cash", "asset"),
   ("Bank", "asset"),
   ("Petty Cash", "asset"),
   ("Sales", "income"),
   ("Sales Income", "income"),
   ("Gold Exchange", "income"),
   ("Gold Exchange Income", "income"),
   ("Making Charges Income", "income"),
   ("Stone Charges Income", "income"),
   ("Service Income", "income"),
   ("GST Payable", "liability"),
   ("VAT Payable", "liability"),
   ("Customer Advance", "liability"),
   ("Rent Expense", "expense"),
   ("Wages Expense", "expense"),
   ("Bank Charges", "expense"),
   ("Accounts Receivable", "asset"),
   ("Accounts Payable", "liability"),
   ("Capital", "equity"),
   ("Retained Earnings", "equity")]

/-! ### `calculate_balance_delta` (§4.2 balance arithmetic) -/

/-- `calculate_balance_delta(account_type, transaction_type, amount)`:
asset/expense accounts grow on debit, all other account-type strings grow on
credit. -/
def calculate_balance_delta (account_type transaction_type : String) (amount : ℚ) : ℚ :=
  if account_type = "asset" ∨ account_type = "expense" then
    if transaction_type = "debit" then amount else -amount
  else
    if transaction_type = "credit" then amount else -amount

/-! ### `fix_account_types` (Step 1, Taxonomy Classifier) -/

/-- First `STANDARD_ACCOUNTS` entry whose name occurs case-insensitively
inside `name`, if any (the classifier's matching rule). -/
def firstMatchType (name : String) : Option String :=
  (STANDARD_ACCOUNTS.find? fun p => strContains (lowerString p.1) (lowerString name)).map (fun p => p.2)

/-- The per-account body of the `fix_account_types` loop: the corrected
account together with whether a correction was recorded. -/
def fixOneAccount (a : Account) : Account × Bool :=
  let current_type := lowerString (a.account_type.getD "")
  match firstMatchType a.name with
  | some correct_type =>
      if correct_type ≠ current_type then
        ({ a with account_type := some correct_type }, true)
      else if (ACCOUNT_TYPES.map Prod.fst).contains current_type then (a, false)
      else ({ a with account_type := some "asset" }, true)
  | none =>
      if (ACCOUNT_TYPES.map Prod.fst).contains current_type then (a, false)
      else ({ a with account_type := some "asset" }, true)

/-- `fix_account_types()`: classify every non-deleted account, returning the
updated store and the number of corrections (`fixed_count`). -/
def fix_account_types (st : DBState) : DBState × Nat :=
  ({ st with accounts := st.accounts.map fun a => if a.is_deleted then a else (fixOneAccount a).1 },
   (st.accounts.filter fun a => !a.is_deleted).countP fun a => (fixOneAccount a).2)

/-! ### Steps 2 and 3: `delete_all_transactions`, `reset_account_balances` -/

/-- `delete_all_transactions()`: soft-delete every active transaction,
stamping the fixed deleting-actor tag. -/
def delete_all_transactions (st : DBState) : DBState :=
  { st with transactions := st.transactions.map fun t =>
      if t.is_deleted then t
      else { t with is_deleted := true, deleted_by := "COMPREHENSIVE_ACCOUNTING_FIX" } }

/-- `reset_account_balances()`: set every active account's `current_balance`
to its `opening_balance`. -/
def reset_account_balances (st : DBState) : DBState :=
  { st with accounts := st.accounts.map fun a =>
      if a.is_deleted then a else { a with current_balance := a.opening_balance } }

/-! ### Step 4: `rebuild_transactions_from_payments` (Rebuild Engine) -/

/-- `find_one({"id": i, "is_deleted": False})` over `accounts`. -/
def findActiveAccount (l : List Account) (i : Nat) : Option Account :=
  l.find? fun a => a.id == i && !a.is_deleted

/-- `count_documents({"is_deleted": False})` over `transactions`. -/
def activeTxnCount (l : List Transaction) : Nat := l.countP fun t => !t.is_deleted

/-- `f"TXN-{year}-{str(seq).zfill(4)}"`. -/
def fmtTxnNumber (year seq : Nat) : String :=
  "TXN-" ++ natToDecimal year ++ "-" ++ zfill 4 (natToDecimal seq)

/-- `insert_one` into `transactions` (consuming one fresh uuid). -/
def insertTxn (st : DBState) (t : Transaction) : DBState :=
  { st with transactions := st.transactions ++ [t], nextId := st.nextId + 1 }

/-- `update_one({"id": aid}, {"$inc": {"current_balance": δ}})`: atomically
increment the first account document with the given id. -/
def updateFirstBalanceInc (l : List Account) (aid : Nat) (δ : ℚ) : List Account :=
  match l with
  | [] => []
  | a :: rest =>
      if a.id = aid then { a with current_balance := a.current_balance + δ } :: rest
      else a :: updateFirstBalanceInc rest aid δ

/-- Apply `updateFirstBalanceInc` inside the state. -/
def incBalance (st : DBState) (aid : Nat) (δ : ℚ) : DBState :=
  { st with accounts := updateFirstBalanceInc st.accounts aid δ }

/-- The old soft-deleted payment transactions used as reconstruction seeds:
`is_deleted = True`, `reference_type = "invoice"`, and deleted by this very
procedure. -/
def oldPaymentTxns (st : DBState) : List Transaction :=
  st.transactions.filter fun t =>
    t.is_deleted && t.reference_type == "invoice" && t.deleted_by == "COMPREHENSIVE_ACCOUNTING_FIX"

/-- Append a transaction to the group of its invoice key, keeping first-seen
key order (Python dict-of-lists accumulation). -/
def addToGroups (groups : List (Nat × List Transaction)) (k : Nat) (t : Transaction) :
    List (Nat × List Transaction) :=
  match groups with
  | [] => [(k, [t])]
  | (k₀, ts) :: rest =>
      if k₀ = k then (k₀, ts ++ [t]) :: rest else (k₀, ts) :: addToGroups rest k t

/-- `payments_by_invoice`: group the seed transactions by `reference_id`,
skipping records whose `reference_id` is missing/falsy. -/
def groupByInvoice (olds : List Transaction) : List (Nat × List Transaction) :=
  olds.foldl (fun groups t =>
    match t.reference_id with
    | none => groups
    | some k => addToGroups groups k t) []

/-- A freshly auto-created standard account (zero balances). -/
def mkStandardAccount (i : Nat) (nm ty : String) : Account :=
  { id := i, name := nm, account_type := some ty, opening_balance := 0,
    current_balance := 0, is_deleted := false }

/-- Ensure the `"Cash"` account exists (auto-create as asset if absent);
returns the snapshot dict the script keeps plus the possibly-extended state. -/
def ensureCashAccount (st : DBState) : Account × DBState :=
  match st.accounts.find? (fun a => a.name == "Cash" && !a.is_deleted) with
  | some a => (a, st)
  | none =>
      let a := mkStandardAccount st.nextId "Cash" "asset"
      (a, { st with accounts := st.accounts ++ [a], nextId := st.nextId + 1 })

/-- Ensure a `"Sales Income"` (or `"Sales"`) account exists (auto-create as
income if absent). -/
def ensureSalesIncomeAccount (st : DBState) : Account × DBState :=
  match st.accounts.find? (fun a => (a.name == "Sales Income" || a.name == "Sales") && !a.is_deleted) with
  | some a => (a, st)
  | none =>
      let a := mkStandardAccount st.nextId "Sales Income" "income"
      (a, { st with accounts := st.accounts ++ [a], nextId := st.nextId + 1 })

/-- The fresh debit-leg document inserted for a seed (the field values of the
`debit_transaction` dict literal of the script). -/
def mkDebitLeg (txnId : Nat) (number : String) (aid : Nat) (amount : ℚ)
    (invoiceId year : Nat) : Transaction :=
  { id := txnId,
    transaction_number := number,
    transaction_type := "debit",
    account_id := some aid,
    amount := amount,
    category := "Invoice Payment - Cash/Bank (Debit)",
    reference_type := "invoice",
    reference_id := some invoiceId,
    created_at_year := some year,
    is_deleted := false,
    deleted_by := "" }

/-- The fresh credit-leg document inserted for a seed (the field values of
the `credit_transaction` dict literal of the script). -/
def mkCreditLeg (txnId : Nat) (number : String) (salesId : Nat) (amount : ℚ)
    (invoiceId year : Nat) : Transaction :=
  { id := txnId,
    transaction_number := number,
    transaction_type := "credit",
    account_id := some salesId,
    amount := amount,
    category := "Invoice Payment - Sales Income (Credit)",
    reference_type := "invoice",
    reference_id := some invoiceId,
    created_at_year := some year,
    is_deleted := false,
    deleted_by := "" }

/-- The body of the inner per-seed loop of
`rebuild_transactions_from_payments`: possibly emit one fresh debit/credit
pair for a historical payment record.  The accumulator carries
`(state, transactions_created, payment_records_processed)`. -/
def processSeed (cash_account sales_income_account : Account) (nowYear invoiceId : Nat)
    (acc : DBState × Nat × Nat) (old_txn : Transaction) : DBState × Nat × Nat :=
  let (st, transactions_created, payment_records_processed) := acc
  if strContains "Income" old_txn.category then acc
  else if old_txn.amount ≤ 0 then acc
  else
    let account_id₀ := old_txn.account_id.getD cash_account.id
    let found := findActiveAccount st.accounts account_id₀
    let payment_account := match found with
      | some a => a
      | none => cash_account
    let account_id := match found with
      | some _ => account_id₀
      | none => cash_account.id
    let year := old_txn.created_at_year.getD nowYear
    let count := activeTxnCount st.transactions
    let debit_transaction : Transaction :=
      mkDebitLeg st.nextId (fmtTxnNumber year (count + 1)) account_id old_txn.amount invoiceId year
    let st := insertTxn st debit_transaction
    let st := incBalance st account_id
      (calculate_balance_delta (payment_account.account_type.getD "asset") "debit" old_txn.amount)
    let credit_transaction : Transaction :=
      mkCreditLeg st.nextId (fmtTxnNumber year (count + 2)) sales_income_account.id
        old_txn.amount invoiceId year
    let st := insertTxn st credit_transaction
    let st := incBalance st sales_income_account.id
      (calculate_balance_delta (sales_income_account.account_type.getD "income") "credit" old_txn.amount)
    (st, transactions_created + 2, payment_records_processed + 1)

/-- The per-invoice-group loop body: skip the whole group unless the invoice
still exists as an active document. -/
def processGroup (cash_account sales_income_account : Account) (nowYear : Nat)
    (acc : DBState × Nat × Nat) (g : Nat × List Transaction) : DBState × Nat × Nat :=
  let (st, _, _) := acc
  match st.invoices.find? (fun inv => inv.id == g.1 && !inv.is_deleted) with
  | none => acc
  | some _ => g.2.foldl (processSeed cash_account sales_income_account nowYear g.1) acc

/-- `rebuild_transactions_from_payments()`: regroup the soft-deleted payment
evidence by invoice, ensure the standard Cash / Sales Income accounts, and
emit a fresh double-entry pair per positive non-income seed, returning
`(state, transactions_created, payment_records_processed)`.  (The initial
paid-invoice query of the script is print-only and not modeled.) -/
def rebuild_transactions_from_payments (st : DBState) (nowYear : Nat) : DBState × Nat × Nat :=
  let old_payment_txns := oldPaymentTxns st
  let payments_by_invoice := groupByInvoice old_payment_txns
  let (cash_account, st₁) := ensureCashAccount st
  let (sales_income_account, st₂) := ensureSalesIncomeAccount st₁
  payments_by_invoice.foldl (processGroup cash_account sales_income_account nowYear) (st₂, 0, 0)

/-! ### Steps 5 and 6: the validators -/

/-- The `by_type` bucket key of an account: its `account_type` with the
`"unknown"` default used when the field is missing. -/
def trialBucket (a : Account) : String := a.account_type.getD "unknown"

/-- The fixed bucket order of the trial-balance report loop. -/
def trialBucketOrder : List String :=
  ["asset", "expense", "income", "liability", "equity", "unknown"]

/-- The active accounts falling in a given report bucket, in store order. -/
def bucketAccounts (accounts : List Account) (ty : String) : List Account :=
  (accounts.filter fun a => !a.is_deleted).filter fun a => trialBucket a == ty

/-- The buckets the trial-balance validation actually prints: only the six
fixed keys, and only when non-empty. -/
def reportedBuckets (accounts : List Account) : List (String × List Account) :=
  (trialBucketOrder.filter fun ty => !(bucketAccounts accounts ty).isEmpty).map
    fun ty => (ty, bucketAccounts accounts ty)

/-- The debit-side / credit-side totals accumulated by the bucket loop of
`validate_trial_balance`: asset and expense buckets go to the debit side,
every other visited bucket (including `"unknown"`) to the credit side. -/
def trialTotals (accounts : List Account) : ℚ × ℚ :=
  trialBucketOrder.foldl (fun dc ty =>
    let bal := ((bucketAccounts accounts ty).map fun a => a.current_balance).sum
    if ty = "asset" ∨ ty = "expense" then (dc.1 + bal, dc.2) else (dc.1, dc.2 + bal))
    (0, 0)

/-- `validate_trial_balance()`: `(is_balanced, total_debit_balance,
total_credit_balance)` with the 1.0-unit rounding tolerance. -/
def validate_trial_balance (accounts : List Account) : Bool × ℚ × ℚ :=
  let t := trialTotals accounts
  (decide (|t.1 - t.2| < 1), t.1, t.2)

/-- `total_debits` of `validate_double_entry`: summed amounts of active
debit transactions. -/
def total_debits (ts : List Transaction) : ℚ :=
  (((ts.filter fun t => !t.is_deleted).filter fun t => t.transaction_type == "debit").map
    fun t => t.amount).sum

/-- `total_credits` of `validate_double_entry`: summed amounts of active
credit transactions. -/
def total_credits (ts : List Transaction) : ℚ :=
  (((ts.filter fun t => !t.is_deleted).filter fun t => t.transaction_type == "credit").map
    fun t => t.amount).sum

/-- `validate_double_entry()`: returns only the balanced boolean (the totals
are computed and printed but not returned). -/
def validate_double_entry (ts : List Transaction) : Bool :=
  decide (|total_debits ts - total_credits ts| < 1)

/-! ### `comprehensive_fix` and the process entry point -/

/-- `comprehensive_fix()`: the snapshot gate followed by the seven-step
pipeline.  The backup collaborator is external, so its success is a
parameter; `generate_audit_report` only re-reads state (its file write is
out of the store model).  Returns the final store and the function's boolean
result. -/
def comprehensive_fix (st : DBState) (backupOk : Bool) (nowYear : Nat) : DBState × Bool :=
  if !backupOk then (st, false)
  else
    let st₁ := (fix_account_types st).1
    let st₂ := delete_all_transactions st₁
    let st₃ := reset_account_balances st₂
    let st₄ := (rebuild_transactions_from_payments st₃ nowYear).1
    let is_trial_balanced := (validate_trial_balance st₄.accounts).1
    let is_double_entry := validate_double_entry st₄.transactions
    (st₄, is_trial_balanced && is_double_entry)

/-- The `__main__` block: `asyncio.run(comprehensive_fix())` discards the
returned boolean and never calls `sys.exit`, so the process exit status is 0
whenever the run does not raise. -/
def mainExitCode (st : DBState) (backupOk : Bool) (nowYear : Nat) : Nat :=
  let _ := comprehensive_fix st backupOk nowYear
  0

/-- The claim C1 composite: soft-delete of all active transactions, reset of
balances, then reconstruction (Steps 2–4). -/
def full_rebuild (st : DBState) (nowYear : Nat) : DBState :=
  (rebuild_transactions_from_payments (reset_account_balances (delete_all_transactions st)) nowYear).1

/-! ### Classifier lemmas -/

theorem fixOneAccount_id (a : Account) : (fixOneAccount a).1.id = a.id := by
  unfold fixOneAccount
  cases firstMatchType a.name <;> dsimp only <;> split <;> try split
  all_goals rfl

theorem fixOneAccount_name (a : Account) : (fixOneAccount a).1.name = a.name := by
  unfold fixOneAccount
  cases firstMatchType a.name <;> dsimp only <;> split <;> try split
  all_goals rfl

theorem fixOneAccount_is_deleted (a : Account) : (fixOneAccount a).1.is_deleted = a.is_deleted := by
  unfold fixOneAccount
  cases firstMatchType a.name <;> dsimp only <;> split <;> try split
  all_goals rfl

theorem firstMatchType_mem {name ty : String} (h : firstMatchType name = some ty) :
    ty ∈ STANDARD_ACCOUNTS.map Prod.snd := by
  unfold firstMatchType at h
  cases hf : STANDARD_ACCOUNTS.find? (fun p => strContains (lowerString p.1) (lowerString name)) with
  | none => rw [hf] at h; simp at h
  | some p =>
      rw [hf] at h
      simp only [Option.map_some', Option.some.injEq] at h
      exact h ▸ List.mem_map_of_mem Prod.snd (List.mem_of_find?_eq_some hf)

theorem standard_type_props :
    ∀ ty ∈ STANDARD_ACCOUNTS.map Prod.snd,
      lowerString ty = ty ∧ (ACCOUNT_TYPES.map Prod.fst).contains ty = true := by
  decide

/-- Classifier post-state: any table match agrees with the stored type, and
the stored type (lowercased) is a canonical taxonomy key. -/
def classifierStable (a : Account) : Prop :=
  (∀ m, firstMatchType a.name = some m → m = lowerString (a.account_type.getD ""))
  ∧ (ACCOUNT_TYPES.map Prod.fst).contains (lowerString (a.account_type.getD "")) = true

theorem fixOneAccount_stable (a : Account) : classifierStable (fixOneAccount a).1 := by
  unfold fixOneAccount
  cases hm : firstMatchType a.name with
  | some t =>
      have hprops := standard_type_props t (firstMatchType_mem hm)
      dsimp only
      by_cases hne : t ≠ lowerString (a.account_type.getD "")
      · rw [if_pos hne]
        refine ⟨?_, ?_⟩
        · intro m hm'
          have : firstMatchType ({ a with account_type := some t } : Account).name
              = firstMatchType a.name := rfl
          rw [this, hm] at hm'
          cases hm'
          simpa using hprops.1.symm
        · simpa [hprops.1] using hprops.2
      · rw [if_neg hne]
        push_neg at hne
        have hc : (ACCOUNT_TYPES.map Prod.fst).contains (lowerString (a.account_type.getD "")) = true := by
          rw [← hne]; exact hprops.2
        rw [if_pos hc]
        refine ⟨?_, hc⟩
        intro m hm'
        rw [hm] at hm'
        cases hm'
        exact hne
  | none =>
      dsimp only
      by_cases hc : (ACCOUNT_TYPES.map Prod.fst).contains (lowerString (a.account_type.getD "")) = true
      · rw [if_pos hc]
        refine ⟨?_, hc⟩
        intro m hm'
        rw [hm] at hm'
        cases hm'
      · rw [if_neg hc]
        refine ⟨?_, ?_⟩
        · intro m hm'
          have : firstMatchType ({ a with account_type := some "asset" } : Account).name
              = firstMatchType a.name := rfl
          rw [this, hm] at hm'
          cases hm'
        · show (ACCOUNT_TYPES.map Prod.fst).contains (lowerString "asset") = true
          decide

theorem fixOneAccount_flag_of_stable (a : Account) (h : classifierStable a) :
    (fixOneAccount a).2 = false := by
  unfold fixOneAccount
  cases hm : firstMatchType a.name with
  | some t =>
      dsimp only
      rw [if_neg (by simpa using h.1 t hm), if_pos h.2]
  | none =>
      dsimp only
      rw [if_pos h.2]

theorem fixOneAccount_idem (a : Account) : (fixOneAccount (fixOneAccount a).1).2 = false :=
  fixOneAccount_flag_of_stable _ (fixOneAccount_stable a)

/-- Claim C8: the Taxonomy Classifier is idempotent — immediately re-running
`fix_account_types` on its own output (no account names having changed)
reports a correction count of 0. -/
theorem c8_classifier_idempotent (st : DBState) :
    (fix_account_types (fix_account_types st).1).2 = 0 := by
  unfold fix_account_types
  dsimp only
  rw [List.filter_map, List.countP_map, List.countP_eq_zero]
  intro a ha
  rw [List.mem_filter] at ha
  simp only [Function.comp_apply] at ha ⊢
  by_cases hd : a.is_deleted
  · rw [if_pos hd] at ha
    simp [hd] at ha
  · rw [if_neg hd]
    simp [fixOneAccount_idem a]

/-- Claim C7: for every non-deleted account whose name matches the standard
table, the classifier assigns (up to the lowercase normal form it compares
with) the type of the first matching `STANDARD_ACCOUNTS` entry, both at the
single-account level and inside `fix_account_types`. -/
theorem c7_first_match_classification (st : DBState) (a : Account) (ty : String)
    (ha : a ∈ st.accounts) (hd : a.is_deleted = false)
    (hm : firstMatchType a.name = some ty) :
    lowerString ((fixOneAccount a).1.account_type.getD "") = ty
    ∧ ∃ a₂ ∈ (fix_account_types st).1.accounts,
        a₂.id = a.id ∧ lowerString (a₂.account_type.getD "") = ty := by
  have hprops := standard_type_props ty (firstMatchType_mem hm)
  have hfst : lowerString ((fixOneAccount a).1.account_type.getD "") = ty := by
    unfold fixOneAccount
    rw [hm]
    dsimp only
    by_cases hne : ty ≠ lowerString (a.account_type.getD "")
    · rw [if_pos hne]
      exact hprops.1
    · rw [if_neg hne]
      push_neg at hne
      rw [if_pos (by rw [← hne]; exact hprops.2)]
      exact hne.symm
  refine ⟨hfst, (fixOneAccount a).1, ?_, fixOneAccount_id a, hfst⟩
  unfold fix_account_types
  dsimp only
  have himg : (fixOneAccount a).1 = (fun x => if x.is_deleted then x else (fixOneAccount x).1) a := by
    simp [hd]
  exact himg ▸ List.mem_map_of_mem _ ha

/-- The "Downtown Bank Branch" account of the C7 scenario. -/
def downtownBankAccount : Account :=
  { id := 3, name := "Downtown Bank Branch", account_type := some "expense",
    opening_balance := 0, current_balance := 0, is_deleted := false }

/-- C7 witness: "Downtown Bank Branch" matches the `("Bank", asset)` entry of
the table and is classified as an asset. -/
theorem c7_witness :
    firstMatchType "Downtown Bank Branch" = some "asset"
    ∧ STANDARD_ACCOUNTS.find?
        (fun p => strContains (lowerString p.1) (lowerString "Downtown Bank Branch"))
        = some ("Bank", "asset")
    ∧ lowerString ((fixOneAccount downtownBankAccount).1.account_type.getD "") = "asset" :=
  ⟨by decide, by decide,
    (c7_first_match_classification ⟨[downtownBankAccount], [], [], 4⟩ downtownBankAccount
      "asset" (by decide) (by decide) (by decide)).1⟩

/-- Claim C9: if the snapshot/backup gate fails, `comprehensive_fix` returns
failure before Step 1 and the store is completely untouched. -/
theorem c9_snapshot_gate_aborts (st : DBState) (backupOk : Bool) (y : Nat)
    (h : backupOk = false) : comprehensive_fix st backupOk y = (st, false) := by
  subst h
  rfl

/-- C9 witness at a concrete store. -/
theorem c9_witness :
    comprehensive_fix ⟨[downtownBankAccount], [], [], 4⟩ false 2025
      = (⟨[downtownBankAccount], [], [], 4⟩, false) :=
  c9_snapshot_gate_aborts _ false 2025 rfl

/-- Claim C10: a seed group whose invoice no longer exists as an active
document is skipped whole: the state (hence every balance) and both
counters are unchanged. -/
theorem c10_missing_invoice_skips_group (cash sales : Account) (y : Nat)
    (st : DBState) (created processed : Nat) (g : Nat × List Transaction)
    (h : ∀ inv ∈ st.invoices, inv.id = g.1 → inv.is_deleted = true) :
    processGroup cash sales y (st, created, processed) g = (st, created, processed) := by
  have hfind : st.invoices.find? (fun inv => inv.id == g.1 && !inv.is_deleted) = none := by
    rw [List.find?_eq_none]
    intro inv hmem
    simp only [Bool.and_eq_true, beq_iff_eq, Bool.not_eq_true', not_and]
    intro hid
    simp [h inv hmem hid]
  simp [processGroup, hfind]

/-- C10 witness: a group of one 500-unit seed whose invoice is soft-deleted
produces nothing. -/
theorem c10_witness :
    processGroup (mkStandardAccount 1 "Cash" "asset") (mkStandardAccount 2 "Sales Income" "income")
      2025
      (⟨[mkStandardAccount 1 "Cash" "asset"], [], [⟨7, 500, true⟩], 3⟩, 0, 0)
      (7, [⟨5, "TXN-2024-0001", "debit", some 1, 500, "Payment", "invoice", some 7, some 2024,
            true, "COMPREHENSIVE_ACCOUNTING_FIX"⟩])
      = (⟨[mkStandardAccount 1 "Cash" "asset"], [], [⟨7, 500, true⟩], 3⟩, 0, 0) :=
  c10_missing_invoice_skips_group _ _ 2025 _ 0 0 _ (by decide)

/-- Claim C5: `validate_double_entry` compares exactly the two computed
totals — summed amounts of active debit transactions against active credit
transactions — and reports balanced iff they differ by strictly less than
1.0; the totals themselves are the `total_debits` / `total_credits` values
it computes (the boolean is its return value, the totals are printed). -/
theorem c5_double_entry_tolerance (ts : List Transaction) :
    (validate_double_entry ts = true ↔ |total_debits ts - total_credits ts| < 1)
    ∧ total_debits ts
        = ((ts.filter fun t => !t.is_deleted && t.transaction_type == "debit").map
            fun t => t.amount).sum
    ∧ total_credits ts
        = ((ts.filter fun t => !t.is_deleted && t.transaction_type == "credit").map
            fun t => t.amount).sum := by
  refine ⟨by simp [validate_double_entry], ?_, ?_⟩
  · simp only [total_debits, List.filter_filter]
    rw [show (fun a : Transaction => a.transaction_type == "debit" && !a.is_deleted)
        = (fun t : Transaction => !t.is_deleted && t.transaction_type == "debit") from
        funext fun t => Bool.and_comm _ _]
  · simp only [total_credits, List.filter_filter]
    rw [show (fun a : Transaction => a.transaction_type == "credit" && !a.is_deleted)
        = (fun t : Transaction => !t.is_deleted && t.transaction_type == "credit") from
        funext fun t => Bool.and_comm _ _]

/-! ### Trial-balance bucket lemmas (for claim C2) -/

/-- Summed `current_balance` of one report bucket. -/
def bucketBalanceSum (accounts : List Account) (ty : String) : ℚ :=
  ((bucketAccounts accounts ty).map fun a => a.current_balance).sum

theorem trialTotals_eq (l : List Account) :
    trialTotals l
      = (bucketBalanceSum l "asset" + bucketBalanceSum l "expense",
         bucketBalanceSum l "income" + bucketBalanceSum l "liability"
           + bucketBalanceSum l "equity" + bucketBalanceSum l "unknown") := by
  simp [trialTotals, trialBucketOrder, bucketBalanceSum]

theorem bucketAccounts_cons (a : Account) (l : List Account) (ty : String) :
    bucketAccounts (a :: l) ty
      = if !a.is_deleted && (trialBucket a == ty) then a :: bucketAccounts l ty
        else bucketAccounts l ty := by
  unfold bucketAccounts
  by_cases hd : a.is_deleted
  · simp [hd, List.filter_cons]
  · by_cases hb : trialBucket a == ty
    · simp [hd, hb, List.filter_cons]
    · simp [hd, hb, List.filter_cons]

theorem bucketBalanceSum_cons (a : Account) (l : List Account) (ty : String) :
    bucketBalanceSum (a :: l) ty
      = if !a.is_deleted && (trialBucket a == ty)
        then a.current_balance + bucketBalanceSum l ty
        else bucketBalanceSum l ty := by
  unfold bucketBalanceSum
  rw [bucketAccounts_cons]
  by_cases h : !a.is_deleted && (trialBucket a == ty) <;> simp [h]

theorem validate_trial_balance_totals (l : List Account) :
    (validate_trial_balance l).2 = trialTotals l := rfl

/-- An active account with a present but non-canonical `account_type`. -/
def oddTypeAccount : Account :=
  { id := 1, name := "Weird", account_type := some "foo", opening_balance := 0,
    current_balance := 5, is_deleted := false }

/-- An active account whose `account_type` field is missing. -/
def missingTypeAccount : Account :=
  { id := 2, name := "NoType", account_type := none, opening_balance := 0,
    current_balance := 5, is_deleted := false }

/-- Claim C2 counterexample.  The claim predicts that an active account with
non-canonical type `"foo"` is reported under the `"unknown"` bucket, and
that `"unknown"`-bucketed balances are excluded from both totals.  In fact:
an account with a present non-canonical type lands in a bucket the report
loop never visits (here the report is empty, not `[("unknown", _)]`), and an
account with a missing type is bucketed `"unknown"` but its balance 5 is
added to the credit-normal total (which the claim says should stay 0). -/
theorem c2_counterexample :
    reportedBuckets [oddTypeAccount] = []
    ∧ (validate_trial_balance [oddTypeAccount]).2 = (0, 0)
    ∧ (validate_trial_balance [missingTypeAccount]).2.2 = 5
    ∧ ¬(validate_trial_balance [missingTypeAccount]).2.2 = 0 := by
  refine ⟨by decide, ?_, ?_, ?_⟩ <;>
    · rw [validate_trial_balance_totals, trialTotals_eq]
      simp [bucketBalanceSum, bucketAccounts, trialBucket, oddTypeAccount,
        missingTypeAccount, List.filter_cons]



/-- Claim C2 as amended: in the trial-balance validation an active account
whose `account_type` is present but outside the six report buckets (the five
canonical types plus the literal `"unknown"`) contributes to neither total
and appears in no reported bucket; an active account bucketed `"unknown"`
(missing type, or the literal string `"unknown"`) is reported under
`"unknown"` but its balance is added to the credit-normal total. -/
theorem c2_amended_unknown_bucket (accounts : List Account) (a : Account)
    (hact : a.is_deleted = false) :
    (∀ t, a.account_type = some t → t ∉ trialBucketOrder →
      (validate_trial_balance (a :: accounts)).2 = (validate_trial_balance accounts).2
      ∧ ∀ p ∈ reportedBuckets (a :: accounts), a ∉ p.2)
    ∧ (trialBucket a = "unknown" →
      (validate_trial_balance (a :: accounts)).2.1 = (validate_trial_balance accounts).2.1
      ∧ (validate_trial_balance (a :: accounts)).2.2
          = a.current_balance + (validate_trial_balance accounts).2.2
      ∧ ∃ l, ("unknown", l) ∈ reportedBuckets (a :: accounts) ∧ a ∈ l) := by
  constructor
  · intro t hsome hnot
    have hbucket : trialBucket a = t := by simp [trialBucket, hsome]
    have hb : ∀ ty ∈ trialBucketOrder,
        bucketBalanceSum (a :: accounts) ty = bucketBalanceSum accounts ty := by
      intro ty hty
      rw [bucketBalanceSum_cons, if_neg]
      simp only [Bool.and_eq_true, beq_iff_eq, hbucket, not_and]
      intro _ hcontra
      exact hnot (hcontra ▸ hty)
    constructor
    · rw [validate_trial_balance_totals, validate_trial_balance_totals,
        trialTotals_eq, trialTotals_eq,
        hb "asset" (by decide), hb "expense" (by decide), hb "income" (by decide),
        hb "liability" (by decide), hb "equity" (by decide), hb "unknown" (by decide)]
    · intro p hp
      unfold reportedBuckets at hp
      obtain ⟨ty, hty, rfl⟩ := List.mem_map.mp hp
      have htysix : ty ∈ trialBucketOrder := List.mem_of_mem_filter hty
      intro hmem
      simp only at hmem
      unfold bucketAccounts at hmem
      rw [List.mem_filter] at hmem
      have hba : trialBucket a = ty := by simpa using hmem.2
      exact hnot (by rw [← hbucket, hba]; exact htysix)
  · intro hua
    have hbs : ∀ ty, ty ≠ "unknown" →
        bucketBalanceSum (a :: accounts) ty = bucketBalanceSum accounts ty := by
      intro ty hne
      rw [bucketBalanceSum_cons, if_neg]
      simp only [Bool.and_eq_true, beq_iff_eq, hua, not_and]
      exact fun _ h => hne h.symm
    have hbu : bucketBalanceSum (a :: accounts) "unknown"
        = a.current_balance + bucketBalanceSum accounts "unknown" := by
      rw [bucketBalanceSum_cons, if_pos]
      simp [hact, hua]
    have hmem : a ∈ bucketAccounts (a :: accounts) "unknown" := by
      unfold bucketAccounts
      rw [List.mem_filter]
      exact ⟨List.mem_filter.mpr ⟨List.mem_cons_self a accounts, by simp [hact]⟩, by simp [hua]⟩
    refine ⟨?_, ?_, bucketAccounts (a :: accounts) "unknown", ?_, hmem⟩
    · rw [validate_trial_balance_totals, validate_trial_balance_totals,
        trialTotals_eq, trialTotals_eq]
      dsimp only
      rw [hbs "asset" (by decide), hbs "expense" (by decide)]
    · rw [validate_trial_balance_totals, validate_trial_balance_totals,
        trialTotals_eq, trialTotals_eq]
      dsimp only
      rw [hbs "income" (by decide), hbs "liability" (by decide), hbs "equity" (by decide), hbu]
      ring
    · unfold reportedBuckets
      apply List.mem_map.mpr
      refine ⟨"unknown", ?_, rfl⟩
      rw [List.mem_filter]
      refine ⟨by decide, ?_⟩
      simpa [List.isEmpty_iff] using List.ne_nil_of_mem hmem

/-- C2 witness for the amended theorem at concrete inputs: the `"foo"`-typed
account changes neither total, and the missing-type account's 5 lands on the
credit side. -/
theorem c2_amended_witness :
    (validate_trial_balance [oddTypeAccount]).2 = (validate_trial_balance ([] : List Account)).2
    ∧ (validate_trial_balance [missingTypeAccount]).2.2
        = missingTypeAccount.current_balance + (validate_trial_balance ([] : List Account)).2.2 :=
  ⟨((c2_amended_unknown_bucket [] oddTypeAccount rfl).1 "foo" rfl (by decide)).1,
   ((c2_amended_unknown_bucket [] missingTypeAccount rfl).2 (by decide)).2.1⟩

/-! ### Claim C3: exit status of the no-argument invocation -/

/-- A store that ends the run with a failing trial balance: a single `Cash`
asset account opened at 100 with no transaction history. -/
def sUnbal : DBState :=
  ⟨[{ id := 1, name := "Cash", account_type := some "asset", opening_balance := 100,
      current_balance := 100, is_deleted := false }], [], [], 2⟩

/-- Claim C3 counterexample: on `sUnbal` the combined validation fails
(`comprehensive_fix` returns `false`), yet the process exit status is 0 —
the entry point discards the boolean and never calls `sys.exit`, so the
claimed "non-zero when the conjunction fails" does not hold. -/
theorem c3_counterexample :
    (comprehensive_fix sUnbal true 2025).2 = false ∧ mainExitCode sUnbal true 2025 = 0 :=
  ⟨by simp [comprehensive_fix, fix_account_types, fixOneAccount, firstMatchType,
      STANDARD_ACCOUNTS, ACCOUNT_TYPES, strContains, lowerString, hasSubChars, startsWithChars,
      delete_all_transactions, reset_account_balances, rebuild_transactions_from_payments,
      oldPaymentTxns, groupByInvoice, ensureCashAccount, ensureSalesIncomeAccount,
      mkStandardAccount, validate_trial_balance, trialTotals, trialBucketOrder, bucketAccounts,
      trialBucket, validate_double_entry, total_debits, total_credits, sUnbal, List.filter_cons,
      List.find?],
   rfl⟩

/-- Claim C3 as amended: the no-argument invocation runs the whole pipeline
and the *function* result is true exactly when both validations succeed on
the final store, but the process exit status is 0 regardless (the entry
point discards the result). -/
theorem c3_amended_exit_code (st : DBState) (y : Nat) :
    mainExitCode st true y = 0
    ∧ mainExitCode st false y = 0
    ∧ ((comprehensive_fix st true y).2 = true ↔
        (validate_trial_balance (comprehensive_fix st true y).1.accounts).1 = true
          ∧ validate_double_entry (comprehensive_fix st true y).1.transactions = true) := by
  refine ⟨rfl, rfl, ?_⟩
  unfold comprehensive_fix
  simp [Bool.and_eq_true]

/-! ### Claim C4: transaction numbering of reconstructed pairs -/

theorem fmtTxnNumber_inj_seq {y m n : Nat} (h : fmtTxnNumber y m = fmtTxnNumber y n) : m = n := by
  unfold fmtTxnNumber at h
  have hdata := congrArg String.data h
  simp only [String.data_append, List.append_assoc] at hdata
  have h₁ := List.append_cancel_left hdata
  have h₂ := List.append_cancel_left h₁
  have h₃ := List.append_cancel_left h₂
  have hm := decimalValue_zfill_natToDecimal 4 m
  rw [show (zfill 4 (natToDecimal m)).data = (zfill 4 (natToDecimal n)).data from h₃,
    decimalValue_zfill_natToDecimal 4 n] at hm
  omega

theorem fmtTxnNumber_succ_ne (y n : Nat) : fmtTxnNumber y (n + 1) ≠ fmtTxnNumber y (n + 2) := by
  intro h
  have := fmtTxnNumber_inj_seq h
  omega

/-- Claim C4: every emitted pair carries transaction numbers derived from
the live active-transaction count — the debit leg is numbered
`TXN-<year>-<count+1>` from the count read before its insert, the credit leg
`TXN-<year>-<count+2>`, which is exactly one more than the active count
observed after the debit insert; the two numbers are distinct, and `<year>`
is the original seed's `created_at` year, not the rebuild-time year. -/
theorem c4_pair_numbering (cash sales : Account) (nowYear invoiceId : Nat)
    (st : DBState) (created processed : Nat) (seed : Transaction) (yr : Nat)
    (h₁ : strContains "Income" seed.category = false)
    (h₂ : 0 < seed.amount)
    (h₃ : seed.created_at_year = some yr) :
    ∃ d c,
      (processSeed cash sales nowYear invoiceId (st, created, processed) seed).1.transactions
        = st.transactions ++ [d, c]
      ∧ d.transaction_number = fmtTxnNumber yr (activeTxnCount st.transactions + 1)
      ∧ c.transaction_number = fmtTxnNumber yr (activeTxnCount st.transactions + 2)
      ∧ c.transaction_number
          = fmtTxnNumber yr (activeTxnCount (st.transactions ++ [d]) + 1)
      ∧ d.transaction_number ≠ c.transaction_number := by
  unfold processSeed
  rw [h₁]
  simp only [Bool.false_eq_true, if_false, not_lt.mpr, if_neg (not_le.mpr h₂)]
  cases hf : findActiveAccount st.accounts (seed.account_id.getD cash.id) with
  | some a =>
      simp only [hf, h₃, Option.getD_some, insertTxn, incBalance, List.append_assoc,
        List.singleton_append, List.cons_append, List.nil_append]
      refine ⟨_, _, rfl, rfl, rfl, ?_, fmtTxnNumber_succ_ne yr _⟩
      simp only [activeTxnCount, List.countP_append, List.countP_cons, List.countP_nil,
        mkDebitLeg, mkCreditLeg]
      norm_num
  | none =>
      simp only [hf, h₃, Option.getD_some, insertTxn, incBalance, List.append_assoc,
        List.singleton_append, List.cons_append, List.nil_append]
      refine ⟨_, _, rfl, rfl, rfl, ?_, fmtTxnNumber_succ_ne yr _⟩
      simp only [activeTxnCount, List.countP_append, List.countP_cons, List.countP_nil,
        mkDebitLeg, mkCreditLeg]
      norm_num

/-- A concrete historical payment seed for the C4 witness. -/
def c4SeedTxn : Transaction :=
  { id := 5, transaction_number := "TXN-2024-0001", transaction_type := "debit",
    account_id := some 1, amount := 500, category := "Payment", reference_type := "invoice",
    reference_id := some 7, created_at_year := some 2024, is_deleted := true,
    deleted_by := "COMPREHENSIVE_ACCOUNTING_FIX" }

/-- A concrete store for the C4 witness. -/
def c4State : DBState := ⟨[mkStandardAccount 1 "Cash" "asset"], [], [], 3⟩

/-- C4 witness: a 500-unit seed from year 2024 processed against an empty
active ledger yields the pair `TXN-2024-0001` / `TXN-2024-0002`. -/
theorem c4_witness :
    strContains "Income" c4SeedTxn.category = false
    ∧ 0 < c4SeedTxn.amount
    ∧ c4SeedTxn.created_at_year = some 2024
    ∧ ∃ d c,
        (processSeed (mkStandardAccount 1 "Cash" "asset")
            (mkStandardAccount 2 "Sales Income" "income")
            2025 7 (c4State, 0, 0) c4SeedTxn).1.transactions
          = c4State.transactions ++ [d, c]
        ∧ d.transaction_number = fmtTxnNumber 2024 (activeTxnCount c4State.transactions + 1)
        ∧ c.transaction_number = fmtTxnNumber 2024 (activeTxnCount c4State.transactions + 2)
        ∧ c.transaction_number = fmtTxnNumber 2024 (activeTxnCount (c4State.transactions ++ [d]) + 1)
        ∧ d.transaction_number ≠ c.transaction_number :=
  ⟨by decide, by norm_num [c4SeedTxn], rfl,
   c4_pair_numbering (mkStandardAccount 1 "Cash" "asset") (mkStandardAccount 2 "Sales Income" "income")
     2025 7 c4State 0 0 c4SeedTxn 2024 (by decide) (by norm_num [c4SeedTxn]) rfl⟩

/-! ### Claim C6: reconstruction is pair-preserving -/

/-- The new transactions come in debit/credit pairs: each pair is one debit
then one credit of equal amount, both referencing the same invoice. -/
def pairedLegs : List Transaction → Bool
  | [] => true
  | [_] => false
  | d :: c :: rest =>
      (d.transaction_type == "debit" && c.transaction_type == "credit"
        && d.amount == c.amount
        && d.reference_type == "invoice" && c.reference_type == "invoice"
        && d.reference_id == c.reference_id && d.reference_id.isSome)
      && pairedLegs rest

theorem pairedLegs_append (l₁ l₂ : List Transaction)
    (h₁ : pairedLegs l₁ = true) (h₂ : pairedLegs l₂ = true) :
    pairedLegs (l₁ ++ l₂) = true := by
  induction l₁ using pairedLegs.induct with
  | case1 => simpa using h₂
  | case2 _ => simp [pairedLegs] at h₁
  | case3 d c rest ih =>
      rw [pairedLegs, Bool.and_eq_true] at h₁
      show pairedLegs (d :: c :: (rest ++ l₂)) = true
      rw [pairedLegs, Bool.and_eq_true]
      exact ⟨h₁.1, ih h₁.2⟩

theorem pairedLegs_even_length (l : List Transaction) (h : pairedLegs l = true) :
    Even l.length := by
  induction l using pairedLegs.induct with
  | case1 => simp
  | case2 _ => simp [pairedLegs] at h
  | case3 d c rest ih =>
      rw [pairedLegs, Bool.and_eq_true] at h
      obtain ⟨r, hr⟩ := ih h.2
      exact ⟨r + 1, by simp [hr]; omega⟩

theorem foldl_preserves {σ α : Type _} (P : σ → Prop) (f : σ → α → σ)
    (hf : ∀ s a, P s → P (f s a)) : ∀ (l : List α) (s : σ), P s → P (l.foldl f s) := by
  intro l
  induction l with
  | nil => exact fun s hs => hs
  | cons a l ih => exact fun s hs => ih (f s a) (hf s a hs)

/-- Fold invariant for C6: relative to the transactions present when the
reconstruction loop started, everything appended so far is a list of
debit/credit pairs counted by `transactions_created`. -/
def rebuildAppendInv (base : List Transaction) (acc : DBState × Nat × Nat) : Prop :=
  ∃ extra, acc.1.transactions = base ++ extra ∧ pairedLegs extra = true ∧ acc.2.1 = extra.length

theorem processSeed_append_inv (cash sales : Account) (y invId : Nat)
    (base : List Transaction) (acc : DBState × Nat × Nat) (t : Transaction)
    (h : rebuildAppendInv base acc) :
    rebuildAppendInv base (processSeed cash sales y invId acc t) := by
  obtain ⟨st, created, processed⟩ := acc
  obtain ⟨extra, he, hp, hc⟩ := h
  unfold processSeed
  dsimp only at he hc ⊢
  by_cases h₁ : strContains "Income" t.category = true
  · rw [if_pos h₁]
    exact ⟨extra, he, hp, hc⟩
  · rw [if_neg h₁]
    by_cases h₂ : t.amount ≤ 0
    · rw [if_pos h₂]
      exact ⟨extra, he, hp, hc⟩
    · rw [if_neg h₂]
      cases hf : findActiveAccount st.accounts (t.account_id.getD cash.id) with
      | some a =>
          refine ⟨extra ++
            [mkDebitLeg st.nextId
              (fmtTxnNumber (t.created_at_year.getD y) (activeTxnCount st.transactions + 1))
              (t.account_id.getD cash.id) t.amount invId (t.created_at_year.getD y),
             mkCreditLeg (st.nextId + 1)
              (fmtTxnNumber (t.created_at_year.getD y) (activeTxnCount st.transactions + 2))
              sales.id t.amount invId (t.created_at_year.getD y)], ?_, ?_, ?_⟩
          · simp [insertTxn, incBalance, he, List.append_assoc]
          · exact pairedLegs_append _ _ hp (by simp [pairedLegs, mkDebitLeg, mkCreditLeg])
          · simp [hc]
      | none =>
          refine ⟨extra ++
            [mkDebitLeg st.nextId
              (fmtTxnNumber (t.created_at_year.getD y) (activeTxnCount st.transactions + 1))
              cash.id t.amount invId (t.created_at_year.getD y),
             mkCreditLeg (st.nextId + 1)
              (fmtTxnNumber (t.created_at_year.getD y) (activeTxnCount st.transactions + 2))
              sales.id t.amount invId (t.created_at_year.getD y)], ?_, ?_, ?_⟩
          · simp [insertTxn, incBalance, he, List.append_assoc]
          · exact pairedLegs_append _ _ hp (by simp [pairedLegs, mkDebitLeg, mkCreditLeg])
          · simp [hc]

theorem processGroup_append_inv (cash sales : Account) (y : Nat)
    (base : List Transaction) (acc : DBState × Nat × Nat) (g : Nat × List Transaction)
    (h : rebuildAppendInv base acc) :
    rebuildAppendInv base (processGroup cash sales y acc g) := by
  obtain ⟨st, created, processed⟩ := acc
  unfold processGroup
  dsimp only
  cases (st.invoices.find? fun inv => inv.id == g.1 && !inv.is_deleted) with
  | none => exact h
  | some _ =>
      exact foldl_preserves _ _ (fun s t => processSeed_append_inv cash sales y g.1 base s t)
        g.2 _ h

theorem ensureCashAccount_transactions (st : DBState) :
    (ensureCashAccount st).2.transactions = st.transactions := by
  unfold ensureCashAccount
  cases st.accounts.find? (fun a => a.name == "Cash" && !a.is_deleted) <;> rfl

theorem ensureSalesIncomeAccount_transactions (st : DBState) :
    (ensureSalesIncomeAccount st).2.transactions = st.transactions := by
  unfold ensureSalesIncomeAccount
  cases st.accounts.find?
    (fun a => (a.name == "Sales Income" || a.name == "Sales") && !a.is_deleted) <;> rfl

/-- Claim C6: reconstruction is pair-preserving — the rebuilt run appends
only whole debit/credit pairs (equal amounts, both `reference_type =
"invoice"`, identical `reference_id`), `transactions_created` counts exactly
those new documents, and it is always even. -/
theorem c6_pair_preserving (st : DBState) (y : Nat) :
    ∃ extra,
      (rebuild_transactions_from_payments st y).1.transactions = st.transactions ++ extra
      ∧ pairedLegs extra = true
      ∧ (rebuild_transactions_from_payments st y).2.1 = extra.length
      ∧ Even (rebuild_transactions_from_payments st y).2.1 := by
  unfold rebuild_transactions_from_payments
  dsimp only
  have hbase : rebuildAppendInv st.transactions
      ((ensureSalesIncomeAccount (ensureCashAccount st).2).2, 0, 0) := by
    refine ⟨[], ?_, rfl, rfl⟩
    rw [ensureSalesIncomeAccount_transactions, ensureCashAccount_transactions,
      List.append_nil]
  obtain ⟨extra, he, hp, hc⟩ :=
    foldl_preserves (rebuildAppendInv st.transactions) _
      (fun s g => processGroup_append_inv _ _ y st.transactions s g)
      (groupByInvoice (oldPaymentTxns st)) _ hbase
  exact ⟨extra, he, hp, hc, hc ▸ pairedLegs_even_length extra hp⟩

/-! ### Claim C1: the rebuilt balances satisfy the §4.2 balance equation -/

/-- The signed-delta sum of §4.2 over the active transactions referencing a
given account id, using that account's stored type. -/
def sumDeltasFor (aid : Nat) (ty : String) (ts : List Transaction) : ℚ :=
  ((ts.filter fun t => !t.is_deleted && t.account_id == some aid).map
    fun t => calculate_balance_delta ty t.transaction_type t.amount).sum

/-- The C1 balance equation: every active account's `current_balance` equals
`opening_balance` plus the signed delta sum of the active transactions that
reference it. -/
def balancesConsistent (st : DBState) : Prop :=
  ∀ a ∈ st.accounts, a.is_deleted = false →
    a.current_balance
      = a.opening_balance + sumDeltasFor a.id (a.account_type.getD "") st.transactions

/-- Well-formedness: account ids are pairwise distinct (uuid uniqueness). -/
def accountIdsNodup (st : DBState) : Prop := (st.accounts.map fun a => a.id).Nodup

/-- Well-formedness: every stored account id is below the fresh-id counter. -/
def accountIdsBounded (st : DBState) : Prop := ∀ a ∈ st.accounts, a.id < st.nextId

/-- Well-formedness (the §3 data-model invariant): every active account has
an `account_type` field. -/
def accountTypesPresent (st : DBState) : Prop :=
  ∀ a ∈ st.accounts, a.is_deleted = false → a.account_type.isSome = true

/-- The induction invariant of the reconstruction loop. -/
def RebuildInv (st : DBState) : Prop :=
  accountIdsNodup st ∧ accountIdsBounded st ∧ accountTypesPresent st ∧ balancesConsistent st

/-- The Python dict snapshot the script keeps of an ensured account agrees
(on id, liveness and type) with a live account document. -/
def liveSnapshot (st : DBState) (acc : Account) : Prop :=
  ∃ b ∈ st.accounts, b.id = acc.id ∧ b.is_deleted = false ∧ b.account_type = acc.account_type

/-- All transactions are tombstones (holds between Step 2 and Step 4). -/
def allTxnsDeleted (st : DBState) : Prop := ∀ t ∈ st.transactions, t.is_deleted = true

theorem nodup_account_ids_inj {l : List Account} (h : (l.map fun a => a.id).Nodup)
    {x y : Account} (hx : x ∈ l) (hy : y ∈ l) (hid : x.id = y.id) : x = y := by
  have := List.inj_on_of_nodup_map h
  exact this hx hy hid

theorem updateFirstBalanceInc_eq_map (l : List Account) (aid : Nat) (δ : ℚ)
    (h : (l.map fun a => a.id).Nodup) :
    updateFirstBalanceInc l aid δ
      = l.map fun a =>
          if a.id = aid then { a with current_balance := a.current_balance + δ } else a := by
  induction l with
  | nil => rfl
  | cons b l ih =>
      rw [List.map_cons, List.nodup_cons] at h
      unfold updateFirstBalanceInc
      by_cases hb : b.id = aid
      · rw [if_pos hb, List.map_cons, if_pos hb]
        congr 1
        have hnone : ∀ a ∈ l, ¬(a.id = aid) := by
          intro a ha haid
          have hmm : a.id ∈ l.map fun a => a.id := List.mem_map_of_mem _ ha
          rw [haid, ← hb] at hmm
          exact h.1 hmm
        rw [show (l.map fun a =>
            if a.id = aid then { a with current_balance := a.current_balance + δ } else a) = l.map id
          from List.map_congr_left fun a ha => by rw [if_neg (hnone a ha)]; rfl, List.map_id]
      · rw [if_neg hb, List.map_cons, if_neg hb]
        congr 1
        exact ih h.2

theorem sumDeltasFor_append (aid : Nat) (ty : String) (ts : List Transaction) (t : Transaction) :
    sumDeltasFor aid ty (ts ++ [t])
      = sumDeltasFor aid ty ts
        + (if !t.is_deleted && t.account_id == some aid
           then calculate_balance_delta ty t.transaction_type t.amount else 0) := by
  unfold sumDeltasFor
  rw [List.filter_append, List.map_append, List.sum_append]
  by_cases h : (!t.is_deleted && t.account_id == some aid) = true
  · simp [List.filter_cons, h]
  · simp [List.filter_cons, h]

theorem sumDeltasFor_of_allDeleted (aid : Nat) (ty : String) {ts : List Transaction}
    (h : ∀ t ∈ ts, t.is_deleted = true) : sumDeltasFor aid ty ts = 0 := by
  unfold sumDeltasFor
  rw [List.filter_eq_nil_iff.mpr]
  · rfl
  · intro t ht
    simp [h t ht]

theorem leg_preserves_liveSnapshot (st : DBState) (t : Transaction) (aid : Nat) (δ : ℚ)
    (acc : Account) (hnd : accountIdsNodup st) (h : liveSnapshot st acc) :
    liveSnapshot (incBalance (insertTxn st t) aid δ) acc := by
  obtain ⟨b, hb, hid, hact, hty⟩ := h
  refine ⟨if b.id = aid then { b with current_balance := b.current_balance + δ } else b,
    ?_, ?_, ?_, ?_⟩
  · show _ ∈ updateFirstBalanceInc st.accounts aid δ
    rw [updateFirstBalanceInc_eq_map _ _ _ hnd]
    exact List.mem_map_of_mem _ hb
  · split <;> exact hid
  · split <;> exact hact
  · split <;> exact hty

/-- One leg of a reconstructed pair — `insert_one` of an active transaction
referencing account `aid` followed by the `$inc` of that account's balance
by the §4.2 delta computed from the live account's stored type — preserves
the rebuild invariant. -/
theorem leg_insert_inc_inv (st : DBState) (t : Transaction) (aid : Nat) (ty : String)
    (hInv : RebuildInv st)
    (ht_act : t.is_deleted = false)
    (ht_acc : t.account_id = some aid)
    (hlive : ∃ b ∈ st.accounts, b.id = aid ∧ b.is_deleted = false ∧ b.account_type = some ty) :
    RebuildInv (incBalance (insertTxn st t) aid
      (calculate_balance_delta ty t.transaction_type t.amount)) := by
  obtain ⟨hnd, hbd, htp, hbal⟩ := hInv
  obtain ⟨b₀, hb₀mem, hb₀id, hb₀act, hb₀ty⟩ := hlive
  set δ := calculate_balance_delta ty t.transaction_type t.amount with hδ
  have hacc : (incBalance (insertTxn st t) aid δ).accounts
      = st.accounts.map fun a =>
          if a.id = aid then { a with current_balance := a.current_balance + δ } else a := by
    show updateFirstBalanceInc st.accounts aid δ = _
    exact updateFirstBalanceInc_eq_map _ _ _ hnd
  have htrans : (incBalance (insertTxn st t) aid δ).transactions = st.transactions ++ [t] := rfl
  have hnext : (incBalance (insertTxn st t) aid δ).nextId = st.nextId + 1 := rfl
  have hfid : ∀ a : Account,
      (if a.id = aid then { a with current_balance := a.current_balance + δ } else a).id
        = a.id := fun a => by split <;> rfl
  have hfdel : ∀ a : Account,
      (if a.id = aid then { a with current_balance := a.current_balance + δ } else a).is_deleted
        = a.is_deleted := fun a => by split <;> rfl
  have hfty : ∀ a : Account,
      (if a.id = aid then { a with current_balance := a.current_balance + δ } else a).account_type
        = a.account_type := fun a => by split <;> rfl
  refine ⟨?_, ?_, ?_, ?_⟩
  · show ((incBalance (insertTxn st t) aid δ).accounts.map fun a => a.id).Nodup
    rw [hacc, List.map_map]
    rw [show ((fun a : Account => a.id)
        ∘ fun a => if a.id = aid then { a with current_balance := a.current_balance + δ } else a)
        = fun a : Account => a.id from funext fun a => hfid a]
    exact hnd
  · intro b hb
    rw [hacc] at hb
    obtain ⟨a, ha, rfl⟩ := List.mem_map.mp hb
    rw [hfid, hnext]
    exact Nat.lt_succ_of_lt (hbd a ha)
  · intro b hb hbact
    rw [hacc] at hb
    obtain ⟨a, ha, rfl⟩ := List.mem_map.mp hb
    rw [hfty]
    exact htp a ha (by rw [← hfdel a]; exact hbact)
  · intro b hb hbact
    rw [hacc] at hb
    obtain ⟨a, ha, rfl⟩ := List.mem_map.mp hb
    have haact : a.is_deleted = false := by rw [← hfdel a]; exact hbact
    have hbase := hbal a ha haact
    rw [htrans, hfid, hfty]
    by_cases hid : a.id = aid
    · have haeq : a = b₀ := nodup_account_ids_inj hnd ha hb₀mem (by rw [hid, hb₀id])
      have hty' : a.account_type = some ty := by rw [haeq]; exact hb₀ty
      have hcond : (!t.is_deleted && t.account_id == some a.id) = true := by
        simp [ht_act, ht_acc, hid]
      rw [if_pos hid]
      dsimp only
      rw [sumDeltasFor_append, hcond, if_pos rfl, hty', Option.getD_some]
      rw [hty', Option.getD_some] at hbase
      rw [hbase]
      ring
    · have hcond : (!t.is_deleted && t.account_id == some a.id) = false := by
        simp only [ht_act, ht_acc, Bool.not_false, Bool.true_and, beq_iff_eq,
          Option.some.injEq]
        exact decide_eq_false fun h => hid h.symm
      rw [if_neg hid, sumDeltasFor_append, hcond]
      simpa using hbase

/-- Invariant carried through the reconstruction loops: the rebuild
invariant plus live agreement of the script's Cash / Sales Income dict
snapshots with the store. -/
def SeedLoopInv (cash sales : Account) (acc : DBState × Nat × Nat) : Prop :=
  RebuildInv acc.1 ∧ liveSnapshot acc.1 cash ∧ liveSnapshot acc.1 sales

theorem processSeed_loop_inv (cash sales : Account) (y invId : Nat)
    (acc : DBState × Nat × Nat) (t : Transaction)
    (h : SeedLoopInv cash sales acc) :
    SeedLoopInv cash sales (processSeed cash sales y invId acc t) := by
  obtain ⟨st, created, processed⟩ := acc
  obtain ⟨hInv, hcash, hsales⟩ := h
  unfold processSeed
  dsimp only at hInv hcash hsales ⊢
  by_cases h₁ : strContains "Income" t.category = true
  · rw [if_pos h₁]
    exact ⟨hInv, hcash, hsales⟩
  · rw [if_neg h₁]
    by_cases h₂ : t.amount ≤ 0
    · rw [if_pos h₂]
      exact ⟨hInv, hcash, hsales⟩
    · rw [if_neg h₂]
      cases hf : findActiveAccount st.accounts (t.account_id.getD cash.id) with
      | some a =>
          simp only [hf]
          have hamem : a ∈ st.accounts := List.mem_of_find?_eq_some hf
          have hapred := List.find?_some hf
          rw [Bool.and_eq_true, beq_iff_eq, Bool.not_eq_true'] at hapred
          obtain ⟨ty, hty⟩ := Option.isSome_iff_exists.mp (hInv.2.2.1 a hamem hapred.2)
          have hliveD : ∃ b ∈ st.accounts, b.id = t.account_id.getD cash.id
              ∧ b.is_deleted = false ∧ b.account_type = some (a.account_type.getD "asset") :=
            ⟨a, hamem, hapred.1, hapred.2, by rw [hty]; rfl⟩
          have hInv₁ := leg_insert_inc_inv st
            (mkDebitLeg st.nextId
              (fmtTxnNumber (t.created_at_year.getD y) (activeTxnCount st.transactions + 1))
              (t.account_id.getD cash.id) t.amount invId (t.created_at_year.getD y))
            (t.account_id.getD cash.id)
            (a.account_type.getD "asset") hInv rfl rfl hliveD
          have hcash₁ := leg_preserves_liveSnapshot st
            (mkDebitLeg st.nextId
              (fmtTxnNumber (t.created_at_year.getD y) (activeTxnCount st.transactions + 1))
              (t.account_id.getD cash.id) t.amount invId (t.created_at_year.getD y))
            (t.account_id.getD cash.id)
            (calculate_balance_delta (a.account_type.getD "asset") "debit" t.amount)
            cash hInv.1 hcash
          have hsales₁ := leg_preserves_liveSnapshot st
            (mkDebitLeg st.nextId
              (fmtTxnNumber (t.created_at_year.getD y) (activeTxnCount st.transactions + 1))
              (t.account_id.getD cash.id) t.amount invId (t.created_at_year.getD y))
            (t.account_id.getD cash.id)
            (calculate_balance_delta (a.account_type.getD "asset") "debit" t.amount)
            sales hInv.1 hsales
          obtain ⟨b, hbmem, hbid, hbact, hbty⟩ := hsales₁
          obtain ⟨ty', hty'⟩ := Option.isSome_iff_exists.mp (hInv₁.2.2.1 b hbmem hbact)
          have hsty : sales.account_type = some ty' := by rw [← hbty]; exact hty'
          have hliveC : ∃ c ∈ (incBalance (insertTxn st
                (mkDebitLeg st.nextId
                  (fmtTxnNumber (t.created_at_year.getD y) (activeTxnCount st.transactions + 1))
                  (t.account_id.getD cash.id) t.amount invId (t.created_at_year.getD y)))
                (t.account_id.getD cash.id)
                (calculate_balance_delta (a.account_type.getD "asset") "debit" t.amount)).accounts,
              c.id = sales.id ∧ c.is_deleted = false
                ∧ c.account_type = some (sales.account_type.getD "income") :=
            ⟨b, hbmem, hbid, hbact, by rw [hty', hsty]; rfl⟩
          have hInv₂ := leg_insert_inc_inv _
            (mkCreditLeg (st.nextId + 1)
              (fmtTxnNumber (t.created_at_year.getD y) (activeTxnCount st.transactions + 2))
              sales.id t.amount invId (t.created_at_year.getD y))
            sales.id
            (sales.account_type.getD "income") hInv₁ rfl rfl hliveC
          exact ⟨hInv₂,
            leg_preserves_liveSnapshot _ _ sales.id _ cash hInv₁.1 hcash₁,
            leg_preserves_liveSnapshot _ _ sales.id _ sales hInv₁.1
              ⟨b, hbmem, hbid, hbact, hbty⟩⟩
      | none =>
          simp only [hf]
          obtain ⟨b₀, hb₀mem, hb₀id, hb₀act, hb₀ty⟩ := hcash
          obtain ⟨ty, hty⟩ := Option.isSome_iff_exists.mp (hInv.2.2.1 b₀ hb₀mem hb₀act)
          have hcty : cash.account_type = some ty := by rw [← hb₀ty]; exact hty
          have hliveD : ∃ b ∈ st.accounts, b.id = cash.id
              ∧ b.is_deleted = false ∧ b.account_type = some (cash.account_type.getD "asset") :=
            ⟨b₀, hb₀mem, hb₀id, hb₀act, by rw [hty, hcty]; rfl⟩
          have hInv₁ := leg_insert_inc_inv st
            (mkDebitLeg st.nextId
              (fmtTxnNumber (t.created_at_year.getD y) (activeTxnCount st.transactions + 1))
              cash.id t.amount invId (t.created_at_year.getD y))
            cash.id
            (cash.account_type.getD "asset") hInv rfl rfl hliveD
          have hcash₁ := leg_preserves_liveSnapshot st
            (mkDebitLeg st.nextId
              (fmtTxnNumber (t.created_at_year.getD y) (activeTxnCount st.transactions + 1))
              cash.id t.amount invId (t.created_at_year.getD y))
            cash.id
            (calculate_balance_delta (cash.account_type.getD "asset") "debit" t.amount)
            cash hInv.1 ⟨b₀, hb₀mem, hb₀id, hb₀act, hb₀ty⟩
          have hsales₁ := leg_preserves_liveSnapshot st
            (mkDebitLeg st.nextId
              (fmtTxnNumber (t.created_at_year.getD y) (activeTxnCount st.transactions + 1))
              cash.id t.amount invId (t.created_at_year.getD y))
            cash.id
            (calculate_balance_delta (cash.account_type.getD "asset") "debit" t.amount)
            sales hInv.1 hsales
          obtain ⟨b, hbmem, hbid, hbact, hbty⟩ := hsales₁
          obtain ⟨ty', hty'⟩ := Option.isSome_iff_exists.mp (hInv₁.2.2.1 b hbmem hbact)
          have hsty : sales.account_type = some ty' := by rw [← hbty]; exact hty'
          have hliveC : ∃ c ∈ (incBalance (insertTxn st
                (mkDebitLeg st.nextId
                  (fmtTxnNumber (t.created_at_year.getD y) (activeTxnCount st.transactions + 1))
                  cash.id t.amount invId (t.created_at_year.getD y)))
                cash.id
                (calculate_balance_delta (cash.account_type.getD "asset") "debit" t.amount)).accounts,
              c.id = sales.id ∧ c.is_deleted = false
                ∧ c.account_type = some (sales.account_type.getD "income") :=
            ⟨b, hbmem, hbid, hbact, by rw [hty', hsty]; rfl⟩
          have hInv₂ := leg_insert_inc_inv _
            (mkCreditLeg (st.nextId + 1)
              (fmtTxnNumber (t.created_at_year.getD y) (activeTxnCount st.transactions + 2))
              sales.id t.amount invId (t.created_at_year.getD y))
            sales.id
            (sales.account_type.getD "income") hInv₁ rfl rfl hliveC
          exact ⟨hInv₂,
            leg_preserves_liveSnapshot _ _ sales.id _ cash hInv₁.1 hcash₁,
            leg_preserves_liveSnapshot _ _ sales.id _ sales hInv₁.1
              ⟨b, hbmem, hbid, hbact, hbty⟩⟩

theorem processGroup_loop_inv (cash sales : Account) (y : Nat)
    (acc : DBState × Nat × Nat) (g : Nat × List Transaction)
    (h : SeedLoopInv cash sales acc) :
    SeedLoopInv cash sales (processGroup cash sales y acc g) := by
  obtain ⟨st, created, processed⟩ := acc
  unfold processGroup
  dsimp only
  cases st.invoices.find? (fun inv => inv.id == g.1 && !inv.is_deleted) with
  | none => exact h
  | some _ =>
      exact foldl_preserves _ _ (fun s t => processSeed_loop_inv cash sales y g.1 s t) g.2 _ h

theorem ensureCashAccount_establish (st : DBState)
    (hInv : RebuildInv st) (hdel : allTxnsDeleted st) :
    RebuildInv (ensureCashAccount st).2
    ∧ liveSnapshot (ensureCashAccount st).2 (ensureCashAccount st).1
    ∧ allTxnsDeleted (ensureCashAccount st).2 := by
  obtain ⟨hnd, hbd, htp, hbal⟩ := hInv
  unfold ensureCashAccount
  cases hf : st.accounts.find? (fun a => a.name == "Cash" && !a.is_deleted) with
  | some a =>
      have hmem := List.mem_of_find?_eq_some hf
      have hpred := List.find?_some hf
      rw [Bool.and_eq_true, beq_iff_eq, Bool.not_eq_true'] at hpred
      exact ⟨⟨hnd, hbd, htp, hbal⟩, ⟨a, hmem, rfl, hpred.2, rfl⟩, hdel⟩
  | none =>
      refine ⟨⟨?_, ?_, ?_, ?_⟩, ?_, hdel⟩
      · show ((st.accounts ++ [mkStandardAccount st.nextId "Cash" "asset"]).map
            fun a => a.id).Nodup
        rw [List.map_append, List.nodup_append]
        refine ⟨hnd, List.nodup_singleton _, ?_⟩
        intro x hx hx'
        obtain ⟨a, ha, rfl⟩ := List.mem_map.mp hx
        simp [mkStandardAccount] at hx'
        exact absurd hx' (Nat.ne_of_lt (hbd a ha))
      · intro b hb
        show b.id < st.nextId + 1
        rcases List.mem_append.mp hb with h | h
        · exact Nat.lt_succ_of_lt (hbd b h)
        · rw [List.mem_singleton.mp h]
          exact Nat.lt_succ_self _
      · intro b hb hbact
        rcases List.mem_append.mp hb with h | h
        · exact htp b h hbact
        · rw [List.mem_singleton.mp h]
          rfl
      · intro b hb hbact
        rcases List.mem_append.mp hb with h | h
        · exact hbal b h hbact
        · rw [List.mem_singleton.mp h]
          show (0 : ℚ) = 0 + sumDeltasFor _ _ st.transactions
          rw [sumDeltasFor_of_allDeleted _ _ hdel]
          norm_num
      · exact ⟨mkStandardAccount st.nextId "Cash" "asset",
          List.mem_append_right _ (List.mem_singleton_self _), rfl, rfl, rfl⟩

theorem ensureSalesIncomeAccount_establish (st : DBState)
    (hInv : RebuildInv st) (hdel : allTxnsDeleted st) :
    RebuildInv (ensureSalesIncomeAccount st).2
    ∧ liveSnapshot (ensureSalesIncomeAccount st).2 (ensureSalesIncomeAccount st).1
    ∧ allTxnsDeleted (ensureSalesIncomeAccount st).2 := by
  obtain ⟨hnd, hbd, htp, hbal⟩ := hInv
  unfold ensureSalesIncomeAccount
  cases hf : st.accounts.find?
      (fun a => (a.name == "Sales Income" || a.name == "Sales") && !a.is_deleted) with
  | some a =>
      have hmem := List.mem_of_find?_eq_some hf
      have hpred := List.find?_some hf
      rw [Bool.and_eq_true, Bool.not_eq_true'] at hpred
      exact ⟨⟨hnd, hbd, htp, hbal⟩, ⟨a, hmem, rfl, hpred.2, rfl⟩, hdel⟩
  | none =>
      refine ⟨⟨?_, ?_, ?_, ?_⟩, ?_, hdel⟩
      · show ((st.accounts ++ [mkStandardAccount st.nextId "Sales Income" "income"]).map
            fun a => a.id).Nodup
        rw [List.map_append, List.nodup_append]
        refine ⟨hnd, List.nodup_singleton _, ?_⟩
        intro x hx hx'
        obtain ⟨a, ha, rfl⟩ := List.mem_map.mp hx
        simp [mkStandardAccount] at hx'
        exact absurd hx' (Nat.ne_of_lt (hbd a ha))
      · intro b hb
        show b.id < st.nextId + 1
        rcases List.mem_append.mp hb with h | h
        · exact Nat.lt_succ_of_lt (hbd b h)
        · rw [List.mem_singleton.mp h]
          exact Nat.lt_succ_self _
      · intro b hb hbact
        rcases List.mem_append.mp hb with h | h
        · exact htp b h hbact
        · rw [List.mem_singleton.mp h]
          rfl
      · intro b hb hbact
        rcases List.mem_append.mp hb with h | h
        · exact hbal b h hbact
        · rw [List.mem_singleton.mp h]
          show (0 : ℚ) = 0 + sumDeltasFor _ _ st.transactions
          rw [sumDeltasFor_of_allDeleted _ _ hdel]
          norm_num
      · exact ⟨mkStandardAccount st.nextId "Sales Income" "income",
          List.mem_append_right _ (List.mem_singleton_self _), rfl, rfl, rfl⟩

theorem ensureSales_preserves_liveSnapshot (st : DBState) (acc : Account)
    (h : liveSnapshot st acc) : liveSnapshot (ensureSalesIncomeAccount st).2 acc := by
  obtain ⟨b, hb, hid, hact, hty⟩ := h
  unfold ensureSalesIncomeAccount
  cases st.accounts.find?
      (fun a => (a.name == "Sales Income" || a.name == "Sales") && !a.is_deleted) with
  | some _ => exact ⟨b, hb, hid, hact, hty⟩
  | none => exact ⟨b, List.mem_append_left _ hb, hid, hact, hty⟩

theorem rebuild_preserves_inv (st : DBState) (y : Nat)
    (hInv : RebuildInv st) (hdel : allTxnsDeleted st) :
    RebuildInv (rebuild_transactions_from_payments st y).1 := by
  unfold rebuild_transactions_from_payments
  dsimp only
  obtain ⟨hInv₁, hsnapC, hdel₁⟩ := ensureCashAccount_establish st hInv hdel
  obtain ⟨hInv₂, hsnapS, hdel₂⟩ :=
    ensureSalesIncomeAccount_establish (ensureCashAccount st).2 hInv₁ hdel₁
  have hsnapC₂ := ensureSales_preserves_liveSnapshot (ensureCashAccount st).2 _ hsnapC
  exact (foldl_preserves
    (SeedLoopInv (ensureCashAccount st).1 (ensureSalesIncomeAccount (ensureCashAccount st).2).1)
    _
    (fun s g => processGroup_loop_inv _ _ y s g)
    (groupByInvoice (oldPaymentTxns st))
    ((ensureSalesIncomeAccount (ensureCashAccount st).2).2, 0, 0)
    ⟨hInv₂, hsnapC₂, hsnapS⟩).1

theorem delete_reset_establish (st : DBState)
    (h₁ : accountIdsNodup st) (h₂ : accountIdsBounded st) (h₃ : accountTypesPresent st) :
    RebuildInv (reset_account_balances (delete_all_transactions st))
    ∧ allTxnsDeleted (reset_account_balances (delete_all_transactions st)) := by
  have hrid : ∀ a : Account,
      (if a.is_deleted then a else { a with current_balance := a.opening_balance }).id
        = a.id := fun a => by split <;> rfl
  have hrdel : ∀ a : Account,
      (if a.is_deleted then a else { a with current_balance := a.opening_balance }).is_deleted
        = a.is_deleted := fun a => by split <;> rfl
  have hrty : ∀ a : Account,
      (if a.is_deleted then a else { a with current_balance := a.opening_balance }).account_type
        = a.account_type := fun a => by split <;> rfl
  have hdel : allTxnsDeleted (reset_account_balances (delete_all_transactions st)) := by
    intro t ht
    obtain ⟨u, hu, rfl⟩ := List.mem_map.mp ht
    by_cases hd : u.is_deleted <;> simp [hd]
  refine ⟨⟨?_, ?_, ?_, ?_⟩, hdel⟩
  · show ((st.accounts.map fun a =>
        if a.is_deleted then a else { a with current_balance := a.opening_balance }).map
        fun a => a.id).Nodup
    rw [List.map_map,
      show ((fun a : Account => a.id)
          ∘ fun a => if a.is_deleted then a else { a with current_balance := a.opening_balance })
        = fun a : Account => a.id from funext fun a => hrid a]
    exact h₁
  · intro b hb
    obtain ⟨a, ha, rfl⟩ := List.mem_map.mp hb
    rw [hrid]
    exact h₂ a ha
  · intro b hb hbact
    obtain ⟨a, ha, rfl⟩ := List.mem_map.mp hb
    rw [hrty]
    exact h₃ a ha (by rw [← hrdel a]; exact hbact)
  · intro b hb hbact
    obtain ⟨a, ha, rfl⟩ := List.mem_map.mp hb
    have haact : a.is_deleted = false := by rw [← hrdel a]; exact hbact
    rw [sumDeltasFor_of_allDeleted _ _ hdel]
    rw [if_neg (by rw [haact]; exact Bool.false_ne_true)]
    norm_num

/-- Claim C1: after a full rebuild — soft-delete of all active transactions,
reset of every active account's `current_balance` to `opening_balance`, then
reconstruction of the debit/credit pairs — every active account satisfies
`current_balance = opening_balance + Σ delta(account_type,
t.transaction_type, t.amount)` over the active transactions referencing it
(assuming distinct account ids, a fresh id counter, and the §3 invariant
that active accounts carry an `account_type`). -/
theorem c1_balance_rebuild (st : DBState) (y : Nat)
    (h₁ : accountIdsNodup st) (h₂ : accountIdsBounded st) (h₃ : accountTypesPresent st) :
    balancesConsistent (full_rebuild st y) := by
  obtain ⟨hInv, hdel⟩ := delete_reset_establish st h₁ h₂ h₃
  exact (rebuild_preserves_inv _ y hInv hdel).2.2.2

/-- Concrete store for the C1 witness: one `Bank` asset account opened at 10
with a stale balance, one historical 500-unit payment transaction, and its
active invoice. -/
def c1WitnessState : DBState :=
  ⟨[{ id := 1, name := "Bank", account_type := some "asset", opening_balance := 10,
      current_balance := 999, is_deleted := false }],
   [{ id := 5, transaction_number := "TXN-2024-0001", transaction_type := "debit",
      account_id := some 1, amount := 500, category := "Payment", reference_type := "invoice",
      reference_id := some 7, created_at_year := some 2024, is_deleted := false,
      deleted_by := "" }],
   [⟨7, 500, false⟩], 10⟩

/-- C1 witness: the hypotheses hold on `c1WitnessState` and the rebuilt
store satisfies the balance equation. -/
theorem c1_witness :
    (accountIdsNodup c1WitnessState ∧ accountIdsBounded c1WitnessState
      ∧ accountTypesPresent c1WitnessState)
    ∧ balancesConsistent (full_rebuild c1WitnessState 2025) :=
  ⟨⟨by unfold accountIdsNodup; decide, by unfold accountIdsBounded; decide,
    by unfold accountTypesPresent; decide⟩,
   c1_balance_rebuild c1WitnessState 2025 (by unfold accountIdsNodup; decide)
     (by unfold accountIdsBounded; decide) (by unfold accountTypesPresent; decide)⟩
